import Mathlib

/-!
Shallow embedding of the Planner / Executor / session-state core of the
voice-first eligibility assistant (`src/agent.py`), together with proofs
about the behaviour of `parse_confirmation`, `Planner.plan`,
`Executor.execute` and `Agent.process_input`.

Text is modelled as Lean `String` / `List Char`; Python's `in` substring
test is the `occurs` function below, `str.lower` is character-wise
`Char.toLower`, `str.strip` removes leading and trailing whitespace, and
the recognition-confidence float is modelled as a rational number.
-/

/-- Python's substring test `tok in t`, over character lists. -/
def occurs (tok : List Char) : List Char → Bool
  | [] => tok.isEmpty
  | c :: t => tok.isPrefixOf (c :: t) || occurs tok t

/-- Python `str.lower`, character-wise (ASCII case mapping; Telugu
characters have no case and are unchanged). -/
def pyLower (l : List Char) : List Char := l.map Char.toLower

/-- Python `str.strip`: drop leading and trailing whitespace. -/
def pyStrip (l : List Char) : List Char :=
  ((l.dropWhile Char.isWhitespace).reverse.dropWhile Char.isWhitespace).reverse

/-- Affirmative keyword set of `parse_confirmation` (src/agent.py line 21). -/
def yes_tokens : List (List Char) := ["అవును".data, "అవు".data, "సరే".data, "yes".data]

/-- Negative keyword set of `parse_confirmation` (src/agent.py line 22). -/
def no_tokens : List (List Char) := ["లేదు".data, "కాదు".data, "no".data]

/-- `found_yes` of `parse_confirmation`: some affirmative token occurs in
the stripped, lower-cased transcript. -/
def found_yes (transcript : String) : Bool :=
  yes_tokens.any (fun tok => occurs tok (pyLower (pyStrip transcript.data)))

/-- `found_no` of `parse_confirmation`: some negative token occurs in the
stripped, lower-cased transcript. -/
def found_no (transcript : String) : Bool :=
  no_tokens.any (fun tok => occurs tok (pyLower (pyStrip transcript.data)))

/-- `parse_confirmation` (src/agent.py lines 14-30): yes/no parser
returning `some true` for yes, `some false` for no, `none` if unclear. -/
def parse_confirmation (transcript : String) : Option Bool :=
  if transcript = "" then none
  else if found_yes transcript && !(found_no transcript) then some true
  else if found_no transcript && !(found_yes transcript) then some false
  else none

/-- An eligibility offer/scheme record: identifier, name, description
(the dict shape used by `check_eligibility` results and the offer store). -/
structure Scheme where
  id : String
  name : String
  description : String
deriving DecidableEq

/-- The collected profile fields (`session["profile"]`); `none` means the
field has not been collected yet. -/
structure Profile where
  age : Option Int := none
  income : Option Int := none
deriving DecidableEq

/-- One session record of the Session Store.  Modelled from the spec:
`src/memory/store.py` is not part of src/, so the session shape follows
the spec's data model (profile, waitingFor marker, lastOffers, history)
as used by src/agent.py. -/
structure Session where
  profile : Profile := {}
  waiting_for : Option String := none
  last_eligibility : List Scheme := []
  history : List (String × String) := []
deriving DecidableEq

/-- Modelled from the spec: the external collaborators consumed by the
Executor (`src/tools/eligibility_engine.py`, `src/tools/mock_api.py`,
`src/tools/retrieval.py` are not part of src/).  `submit_application`
returns the application identifier; `get_scheme_by_id` returns the
offer-with-description for an identifier (the absent case is not
modelled: the Executor dereferences the result unconditionally). -/
structure Env where
  check_eligibility : Profile → List Scheme
  submit_application : Profile → String
  search_schemes : String → List Scheme
  get_scheme_by_id : String → Scheme

/-- The closed set of step kinds the Planner emits and the Executor
handles, as a tagged variant (spec §9 design note). -/
inductive Step where
  | clarify_asr
  | ask_field (field : String)
  | fill_field (field : String)
  | check_eligibility
  | describe_scheme (query : String)
  | confirm
  | submit_application
deriving DecidableEq

/-- A step outcome: the dict returned by `Executor.execute`, with absent
keys modelled as `none`. -/
structure Outcome where
  status : String
  reply : Option String := none
  error : Option String := none
  field : Option String := none
  eligible : Option (List Scheme) := none
  application_id : Option String := none
deriving DecidableEq

/-- ASR-confidence threshold of the Planner (0.6 in src/agent.py line 38). -/
def asrThreshold : ℚ := 0.6

/-- The "details/about" keyword list of `Planner.plan` (line 48). -/
def detail_keywords : List (List Char) :=
  ["వివర".data, "వివరాలు".data, "details".data, "more".data, "about".data]

/-- `any(k in (transcript or "").lower() for k in detail_keywords)`. -/
def hasDetailKeyword (transcript : String) : Bool :=
  detail_keywords.any (fun k => occurs k (pyLower transcript.data))

/-- `profile.get(f)` for the two required fields. -/
def profileGet (p : Profile) (f : String) : Option Int :=
  if f = "age" then p.age
  else if f = "income" then p.income
  else none

/-- The tail of `Planner.plan` (lines 56-65): ask for the first missing
required field, else check eligibility. -/
def planNoWait (session : Session) : List Step :=
  let missing := ["age", "income"].filter (fun f => profileGet session.profile f = none)
  match missing with
  | [] => [Step.check_eligibility]
  | f :: _ => [Step.ask_field f]

/-- `Planner.plan` (src/agent.py lines 34-65).  A `waiting_for` value of
`some ""` is falsy in Python and is treated as not waiting. -/
def plan (session : Session) (transcript : String) (confidence : ℚ) : List Step :=
  if confidence < asrThreshold then [Step.clarify_asr]
  else
    match session.waiting_for with
    | some waiting =>
      if waiting = "" then planNoWait session
      else if waiting = "confirmation" then
        if hasDetailKeyword transcript then [Step.describe_scheme transcript]
        else [Step.confirm]
      else [Step.fill_field waiting]
    | none => planNoWait session

/-- `re.search(r"(\d{1,3})", transcript)`: at the first position where a
digit matches, greedily take up to three digits. -/
def searchAge : List Char → Option (List Char)
  | [] => none
  | c :: t =>
    if c.isDigit then some (((c :: t).takeWhile Char.isDigit).take 3)
    else searchAge t

/-- `re.search(r"(\d{3,})", s)`: at the first position where three or
more digits match, greedily take the whole digit run. -/
def searchIncome : List Char → Option (List Char)
  | [] => none
  | c :: t =>
    let run := (c :: t).takeWhile Char.isDigit
    if 3 ≤ run.length then some run else searchIncome t

/-- `int` applied to a run of decimal digits. -/
def digitsToNat (l : List Char) : Nat :=
  l.foldl (fun acc c => acc * 10 + (c.toNat - '0'.toNat)) 0

/-- `Executor._parse_and_set_field` (src/agent.py lines 186-200): returns
whether the field was filled, together with the updated session. -/
def parse_and_set_field (session : Session) (field : String) (transcript : String) :
    Bool × Session :=
  if field = "age" then
    match searchAge transcript.data with
    | some run =>
      (true, { session with profile := { session.profile with age := some (digitsToNat run) } })
    | none => (false, session)
  else if field = "income" then
    match searchIncome ((transcript.data.filter (fun c => !(c = ',')))) with
    | some run =>
      (true, { session with profile := { session.profile with income := some (digitsToNat run) } })
    | none => (false, session)
  else (false, session)

/-- `step.get("query") or transcript or ""` (line 126): the step's query
when truthy, else the raw transcript (Python's falsy `""` makes both
branches agree when the transcript is empty). -/
def describeQuery (q transcript : String) : String :=
  if !(q = "") then q else transcript

/-- The local-match predicate of the `describe_scheme` step (line 133):
the offer's lower-cased name or identifier occurs as a substring of the
lower-cased query. -/
def schemeMatches (query : String) (s : Scheme) : Bool :=
  occurs (pyLower s.name.data) (pyLower query.data) ||
    occurs (pyLower s.id.data) (pyLower query.data)

/-- Fixed clarification reply of the `clarify_asr` step. -/
def clarifyReply : String := "క్షమించండి, నేను స్పష్టంగా వినలేకపోయాను. దయచేసి మళ్లీ రికార్డ్ చేయండి."

/-- Prompt of `ask_field` for "age". -/
def askAgeReply : String := "దయచేసి మీ వయస్సును చెప్పండి."

/-- Prompt of `ask_field` for "income". -/
def askIncomeReply : String := "దయచేసి మీ వార్షిక ఆదాయాన్ని (ఒక సంఖ్యలో) చెప్పండి."

/-- Fallback reply of `ask_field` for an unknown field name. -/
def askUnknownReply : String := "సమాధానం తెలియదు."

/-- Re-prompt reply of a failed `fill_field` step for `field`. -/
def fillRetryReply (field : String) : String :=
  "క్షమించండి, మీ " ++ field ++ " గురించి స్పష్టంగా చెప్పగలరా?"

/-- Reply of a successful `check_eligibility` step listing the offer
names followed by the yes/no prompt. -/
def eligibleReply (names : String) : String :=
  "మీకు ఈ పథకాలకు అర్హత ఉంది: " ++ names ++ ". మీరు దరఖాస్తు చేయాలనుకుంటున్నారా? (అవును/లేదు)"

/-- "No matching offer" reply of `check_eligibility`. -/
def noSchemeReply : String :=
  "క్షమించండి, ప్రస్తుత సమాచారం ప్రకారం మీకు తెలియజేసేందుకు అనుకూలమైన పథకం కనిపించలేదు."

/-- "Could not find details" reply of `describe_scheme`. -/
def noDetailsReply : String :=
  "క్షమించండి, ఆ పథకం గురించి వివరాలు నాకు లభించలేదు. మీరు మరొకటి అడగాలనుకుంటున్నారా?"

/-- Success reply of the `confirm` step, embedding the application id. -/
def submittedReply (app_id : String) : String :=
  "మీ దరఖాస్తు విజయవంతంగా సమర్పించబడింది. దరఖాస్తు ID: " ++ app_id

/-- Decline acknowledgment of the `confirm` step. -/
def declinedReply : String :=
  "సరే, నేను దరఖాస్తును నిలిపివెతున్నాను. మరింత సహాయం కావాలనుకుంటే చెప్పండి."

/-- Re-ask reply of the `confirm` step on an ambiguous answer. -/
def confirmAskReply : String := "దయచేసి అవును లేదా కాదు అని చెప్పగలరా? (అవును/లేదు)"

/-- Reply of the direct `submit_application` step. -/
def submittedReplyEn (app_id : String) : String :=
  "Your application has been submitted. ID: " ++ app_id

/-- `", ".join(names)`. -/
def joinComma : List String → String
  | [] => ""
  | [s] => s
  | s :: rest => s ++ ", " ++ joinComma rest

/-- One session record is appended an assistant/user turn
(`add_history`; modelled from the spec's `appendHistory` accessor,
`src/memory/store.py` is not part of src/). -/
def addHistory (session : Session) (role text : String) : Session :=
  { session with history := session.history ++ [(role, text)] }

/-- The body of `Executor.execute` (src/agent.py lines 69-184) for an
existing session: performs one step, returning the outcome, the updated
session, and the list of profiles passed to the application-submission
collaborator during the step (the submission call log). -/
def executeCore (env : Env) (step : Step) (session : Session) (transcript : String) :
    Outcome × Session × List Profile :=
  match step with
  | Step.clarify_asr =>
    let session := { session with waiting_for := none }
    let session := addHistory session "assistant" clarifyReply
    ({ status := "clarify", reply := some clarifyReply }, session, [])
  | Step.ask_field field =>
    if field = "age" then
      let session := { session with waiting_for := some "age" }
      let session := addHistory session "assistant" askAgeReply
      ({ status := "ask", reply := some askAgeReply }, session, [])
    else if field = "income" then
      let session := { session with waiting_for := some "income" }
      let session := addHistory session "assistant" askIncomeReply
      ({ status := "ask", reply := some askIncomeReply }, session, [])
    else
      let session := addHistory session "assistant" askUnknownReply
      ({ status := "ask", reply := some askUnknownReply }, session, [])
  | Step.fill_field field =>
    let r := parse_and_set_field session field transcript
    if !r.1 then
      let session := { r.2 with waiting_for := some field }
      let session := addHistory session "assistant" (fillRetryReply field)
      ({ status := "ask", reply := some (fillRetryReply field) }, session, [])
    else
      let session := { r.2 with waiting_for := none }
      ({ status := "filled", field := some field }, session, [])
  | Step.check_eligibility =>
    let eligible := env.check_eligibility session.profile
    let session := { session with last_eligibility := eligible }
    if !eligible.isEmpty then
      let reply := eligibleReply (joinComma (eligible.map Scheme.name))
      let session := { session with waiting_for := some "confirmation" }
      let session := addHistory session "assistant" reply
      ({ status := "eligible_check", reply := some reply, eligible := some eligible },
        session, [])
    else
      let session := { session with waiting_for := none }
      let session := addHistory session "assistant" noSchemeReply
      ({ status := "eligible_check", reply := some noSchemeReply, eligible := some eligible },
        session, [])
  | Step.describe_scheme q =>
    let query := describeQuery q transcript
    let hits := session.last_eligibility.filter (schemeMatches query)
    let hits := if hits.isEmpty then env.search_schemes query else hits
    match hits with
    | [] =>
      let session := { session with waiting_for := some "confirmation" }
      let session := addHistory session "assistant" noDetailsReply
      ({ status := "no_details", reply := some noDetailsReply }, session, [])
    | first :: _ =>
      let doc := env.get_scheme_by_id first.id
      let reply := doc.name ++ ": " ++ doc.description
      let session := { session with waiting_for := some "confirmation" }
      let session := addHistory session "assistant" reply
      ({ status := "describe", reply := some reply }, session, [])
  | Step.confirm =>
    match parse_confirmation transcript with
    | some true =>
      let app_id := env.submit_application session.profile
      let session := addHistory session "assistant" (submittedReply app_id)
      let session := { session with waiting_for := none }
      ({ status := "submitted", reply := some (submittedReply app_id),
          application_id := some app_id }, session, [session.profile])
    | some false =>
      let session := addHistory session "assistant" declinedReply
      let session := { session with waiting_for := none }
      ({ status := "declined", reply := some declinedReply }, session, [])
    | none =>
      let session := { session with waiting_for := some "confirmation" }
      let session := addHistory session "assistant" confirmAskReply
      ({ status := "confirm_ask", reply := some confirmAskReply }, session, [])
  | Step.submit_application =>
    let app_id := env.submit_application session.profile
    let session := addHistory session "assistant" (submittedReplyEn app_id)
    let session := { session with waiting_for := none }
    ({ status := "submitted", reply := some (submittedReplyEn app_id) },
      session, [session.profile])

/-- `Executor.execute` (src/agent.py lines 69-184): an absent session
yields an error outcome with no mutation; otherwise runs `executeCore`. -/
def execute (env : Env) (step : Step) (st : Option Session) (transcript : String) :
    Outcome × Option Session × List Profile :=
  match st with
  | none => ({ status := "error", error := some "no_session" }, none, [])
  | some s =>
    let r := executeCore env step s transcript
    (r.1, some r.2.1, r.2.2)

/-- Python truthiness of an optional string (`None` and `""` are falsy),
used for `exec_out.get("reply")` and `.get("application_id")` checks. -/
def truthyS : Option String → Bool
  | none => false
  | some s => !(s = "")

/-- The boundary-facing response dict built by `Agent.process_input`. -/
structure Response where
  status : String
  reply : Option String := none
  error : Option String := none
  eligible : Option (List Scheme) := none
  application_id : Option String := none
deriving DecidableEq

/-- The early-exit response built at the first outcome with a reply
(src/agent.py lines 238-246). -/
def buildEarly (o : Outcome) : Response :=
  { status := o.status, reply := o.reply, eligible := o.eligible,
    application_id := if truthyS o.application_id then o.application_id else none }

/-- The fallback response built after the loop ends (lines 255-263):
`no_action` with an empty reply only when no outcome was ever produced,
otherwise the fields of the last outcome. -/
def fallbackResponse : Option Outcome → Response
  | none => { status := "no_action", reply := some "" }
  | some o =>
    { status := o.status, reply := o.reply, eligible := o.eligible,
      application_id := if truthyS o.application_id then o.application_id else none }

/-- A Planner/Executor pairing driven by the orchestration loop (the
`self.planner` / `self.executor` attributes of `Agent`; the Evaluator is
the identity, src/agent.py lines 203-206).  The executor component acts
on the session record of the addressed session and reports the profiles
submitted to the application collaborator. -/
structure Components where
  plannerF : Session → String → ℚ → List Step
  executorF : Step → Session → String → Outcome × Session × List Profile

/-- Result of running the steps of one plan (the inner `for step in plan`
loop): either an early return with a response, or fall-through to the
next outer iteration.  Carries the last outcome, the session, the
submission log, and the trace of all executed outcomes. -/
inductive StepsOut where
  | early (r : Response) (sess : Session) (log : List Profile) (outs : List Outcome)
  | through (resp : Option Outcome) (sess : Session) (log : List Profile) (outs : List Outcome)

/-- The inner `for step in plan` loop of `Agent.process_input` (lines
232-251): execute steps in order; return early at the first outcome with
a truthy reply; break (and fall through to the next outer iteration) at
a "filled" outcome; otherwise continue with the next step. -/
def runSteps (ex : Step → Session → String → Outcome × Session × List Profile)
    (transcript : String) :
    List Step → Session → Option Outcome → List Profile → List Outcome → StepsOut
  | [], sess, resp, log, outs => StepsOut.through resp sess log outs
  | step :: rest, sess, _resp, log, outs =>
    let r := ex step sess transcript
    let o := r.1
    if truthyS o.reply then StepsOut.early (buildEarly o) r.2.1 (log ++ r.2.2) (outs ++ [o])
    else if o.status = "filled" then StepsOut.through (some o) r.2.1 (log ++ r.2.2) (outs ++ [o])
    else runSteps ex transcript rest r.2.1 (some o) (log ++ r.2.2) (outs ++ [o])

/-- The observable result of one `process_input` call: the response dict,
the final state of the addressed session record, the profiles submitted
to the application collaborator, the trace of executed outcomes, and the
number of outer iterations that executed at least one step. -/
structure RunResult where
  response : Response
  store : Option Session
  submitted : List Profile
  outs : List Outcome
  iterations : Nat
deriving DecidableEq

/-- The outer `for _ in range(5)` loop of `Agent.process_input` (lines
227-253), with the remaining iteration budget as fuel. -/
def loopGo (C : Components) (transcript : String) (confidence : ℚ) :
    Nat → Session → Option Outcome → List Profile → List Outcome → Nat → RunResult
  | 0, sess, resp, log, outs, iters =>
    { response := fallbackResponse resp, store := some sess, submitted := log,
      outs := outs, iterations := iters }
  | fuel + 1, sess, resp, log, outs, iters =>
    let p := C.plannerF sess transcript confidence
    if p.isEmpty then
      { response := fallbackResponse resp, store := some sess, submitted := log,
        outs := outs, iterations := iters }
    else
      match runSteps C.executorF transcript p sess resp log outs with
      | StepsOut.early r sess' log' outs' =>
        { response := r, store := some sess', submitted := log', outs := outs',
          iterations := iters + 1 }
      | StepsOut.through resp' sess' log' outs' =>
        loopGo C transcript confidence fuel sess' resp' log' outs' (iters + 1)

/-- `Agent.process_input` (src/agent.py lines 217-263): an absent session
yields the `session_not_found` error without touching any state;
otherwise the utterance is appended to history and the bounded
plan/execute loop runs. -/
def process_input (C : Components) (st : Option Session) (transcript : String)
    (confidence : ℚ) : RunResult :=
  match st with
  | none =>
    { response := { status := "error", error := some "session_not_found" },
      store := none, submitted := [], outs := [], iterations := 0 }
  | some sess =>
    let sess := addHistory sess "user" transcript
    loopGo C transcript confidence 5 sess none [] [] 0

/-- The agent's actual Planner/Executor pairing over collaborators `env`. -/
def realComponents (env : Env) : Components :=
  { plannerF := plan, executorF := executeCore env }

/-- `occurs` decides the substring (infix) relation of Python's `in`. -/
theorem occurs_iff (tok : List Char) : ∀ t : List Char, occurs tok t = true ↔ tok <:+: t := by
  intro t
  induction t with
  | nil => simp [occurs, List.infix_nil]
  | cons c t ih =>
    simp only [occurs, Bool.or_eq_true, ih, List.isPrefixOf_iff_prefix, List.infix_cons_iff]

/-- Lower-casing fixes whitespace characters. -/
theorem toLower_of_ws (c : Char) (h : c.isWhitespace = true) : Char.toLower c = c := by
  have h' : ((c = ' ' ∨ c = '\t') ∨ c = '\x0d') ∨ c = '\n' := by
    simpa [Char.isWhitespace] using h
  rcases h' with ((h | h) | h) | h <;> subst h <;> decide

/-- A nonempty whitespace-free token occurs in the lower-cased text with
leading whitespace removed iff it occurs in the lower-cased text. -/
theorem infix_lower_dropWhile (tok : List Char) (htok : tok ≠ [])
    (hws : ∀ c ∈ tok, c.isWhitespace = false) :
    ∀ l : List Char,
      (tok <:+: pyLower (l.dropWhile Char.isWhitespace) ↔ tok <:+: pyLower l) := by
  intro l
  induction l with
  | nil => simp
  | cons c t ih =>
    by_cases hc : c.isWhitespace = true
    · rw [List.dropWhile_cons, if_pos hc, ih]
      show tok <:+: pyLower t ↔ tok <:+: pyLower (c :: t)
      unfold pyLower
      rw [List.map_cons]
      constructor
      · exact fun h => List.infix_cons h
      · intro h
        rcases List.infix_cons_iff.mp h with hp | h
        · rcases tok with _ | ⟨t₀, tok'⟩
          · exact absurd rfl htok
          · rcases List.cons_prefix_cons.mp hp with ⟨he, _⟩
            have h2 := hws t₀ (List.mem_cons_self _ _)
            rw [he, toLower_of_ws c hc, hc] at h2
            simp at h2
        · exact h
    · rw [List.dropWhile_cons, if_neg hc]

/-- Reversal respects the infix relation (alias of the library lemma). -/
theorem infix_rev_iff (a b : List Char) : a.reverse <:+: b.reverse ↔ a <:+: b :=
  List.reverse_infix

/-- Infix of a reversed list, reversed. -/
theorem infix_rev' (a M : List Char) : a <:+: M.reverse ↔ a.reverse <:+: M := by
  have h := infix_rev_iff a.reverse M
  rwa [List.reverse_reverse] at h

/-- Lower-casing commutes with reversal. -/
theorem pyLower_reverse (l : List Char) : pyLower l.reverse = (pyLower l).reverse := by
  simp [pyLower]

/-- A nonempty whitespace-free token occurs in the lower-cased, stripped
text iff it occurs in the lower-cased text: stripping never affects
keyword matches. -/
theorem infix_lower_strip (tok : List Char) (htok : tok ≠ [])
    (hws : ∀ c ∈ tok, c.isWhitespace = false) (l : List Char) :
    (tok <:+: pyLower (pyStrip l)) ↔ tok <:+: pyLower l := by
  have htok' : tok.reverse ≠ [] := by simpa using htok
  have hws' : ∀ c ∈ tok.reverse, c.isWhitespace = false := by
    intro c hc
    exact hws c (List.mem_reverse.mp hc)
  unfold pyStrip
  rw [pyLower_reverse, infix_rev', infix_lower_dropWhile tok.reverse htok' hws',
    pyLower_reverse, infix_rev_iff, infix_lower_dropWhile tok htok hws]

/-- Some token of `toks` occurs as a substring of the text `t`. -/
def tokenOccurs (toks : List (List Char)) (t : List Char) : Prop :=
  ∃ tok ∈ toks, tok <:+: t

instance (toks : List (List Char)) (t : List Char) : Decidable (tokenOccurs toks t) := by
  unfold tokenOccurs
  infer_instance

/-- The keyword scan of `parse_confirmation` over the stripped, lowered
text finds a token iff the token occurs in the lower-cased raw text. -/
theorem found_any_iff (toks : List (List Char)) (hne : ∀ tok ∈ toks, tok ≠ [])
    (hws : ∀ tok ∈ toks, ∀ c ∈ tok, c.isWhitespace = false) (tr : String) :
    (toks.any (fun tok => occurs tok (pyLower (pyStrip tr.data))) = true) ↔
      tokenOccurs toks (pyLower tr.data) := by
  rw [List.any_eq_true]
  unfold tokenOccurs
  constructor
  · rintro ⟨tok, hmem, hocc⟩
    exact ⟨tok, hmem,
      (infix_lower_strip tok (hne tok hmem) (hws tok hmem) tr.data).mp
        ((occurs_iff tok _).mp hocc)⟩
  · rintro ⟨tok, hmem, hinf⟩
    exact ⟨tok, hmem,
      (occurs_iff tok _).mpr
        ((infix_lower_strip tok (hne tok hmem) (hws tok hmem) tr.data).mpr hinf)⟩

/-- `found_yes` finds an affirmative token iff one occurs in the
lower-cased transcript. -/
theorem found_yes_iff (tr : String) :
    found_yes tr = true ↔ tokenOccurs yes_tokens (pyLower tr.data) :=
  found_any_iff yes_tokens (by decide) (by decide) tr

/-- `found_no` finds a negative token iff one occurs in the lower-cased
transcript. -/
theorem found_no_iff (tr : String) :
    found_no tr = true ↔ tokenOccurs no_tokens (pyLower tr.data) :=
  found_any_iff no_tokens (by decide) (by decide) tr

/-- Trichotomy of an optional Boolean value. -/
theorem optionBool_tri (o : Option Bool) : o = some true ∨ o = some false ∨ o = none := by
  rcases o with _ | b
  · exact Or.inr (Or.inr rfl)
  · rcases b with _ | _
    · exact Or.inr (Or.inl rfl)
    · exact Or.inl rfl

/-- Claim C1: for every session, utterance and confidence strictly below
the 0.6 threshold, the Planner returns exactly the single
`clarify_asr` ("request re-recording") step, regardless of `waiting_for`,
profile contents, or the utterance text. -/
theorem plan_low_confidence (session : Session) (transcript : String) (confidence : ℚ)
    (h : confidence < asrThreshold) :
    plan session transcript confidence = [Step.clarify_asr] := by
  simp [plan, h]

/-- Confidence 0 is strictly below the threshold. -/
theorem zero_lt_asrThreshold : (0 : ℚ) < asrThreshold := by norm_num [asrThreshold]

/-- Confidence 1 is at or above the threshold. -/
theorem asrThreshold_le_one : asrThreshold ≤ (1 : ℚ) := by norm_num [asrThreshold]

/-- Witness for `plan_low_confidence` at confidence 0. -/
theorem plan_low_confidence_witness :
    (0 : ℚ) < asrThreshold ∧ plan {} "దరఖాస్తు" 0 = [Step.clarify_asr] :=
  ⟨zero_lt_asrThreshold, plan_low_confidence {} "దరఖాస్తు" 0 zero_lt_asrThreshold⟩

/-- Claim C7: `parse_confirmation` is total into the three results
`some true` (Affirmative), `some false` (Negative) and `none`
(Ambiguous); it is Affirmative iff an affirmative token occurs in the
lower-cased text and no negative token does, Negative iff the symmetric
condition holds, and Ambiguous otherwise (no token found, or both
found). -/
theorem parse_confirmation_spec (tr : String) :
    (parse_confirmation tr = some true ∨ parse_confirmation tr = some false ∨
      parse_confirmation tr = none)
    ∧ (parse_confirmation tr = some true ↔
        tokenOccurs yes_tokens (pyLower tr.data) ∧ ¬ tokenOccurs no_tokens (pyLower tr.data))
    ∧ (parse_confirmation tr = some false ↔
        tokenOccurs no_tokens (pyLower tr.data) ∧ ¬ tokenOccurs yes_tokens (pyLower tr.data))
    ∧ (parse_confirmation tr = none ↔
        (¬(tokenOccurs yes_tokens (pyLower tr.data) ∧
            ¬ tokenOccurs no_tokens (pyLower tr.data)) ∧
          ¬(tokenOccurs no_tokens (pyLower tr.data) ∧
            ¬ tokenOccurs yes_tokens (pyLower tr.data)))) := by
  refine ⟨optionBool_tri _, ?_⟩
  by_cases htr : tr = ""
  · subst htr
    decide
  · have hY := found_yes_iff tr
    have hN := found_no_iff tr
    unfold parse_confirmation
    rw [if_neg htr]
    cases hy : found_yes tr <;> cases hn : found_no tr <;>
      rw [hy] at hY <;> rw [hn] at hN <;>
      simp_all

/-- The session is not blocked on anything Python considers truthy:
`waiting_for` is absent (or the falsy empty string). -/
def notWaiting (session : Session) : Prop :=
  session.waiting_for = none ∨ session.waiting_for = some ""

/-- `planNoWait` asks for age when age is missing. -/
theorem planNoWait_age (session : Session) (h : session.profile.age = none) :
    planNoWait session = [Step.ask_field "age"] := by
  simp [planNoWait, profileGet, h]

/-- `planNoWait` asks for income when age is present and income missing. -/
theorem planNoWait_income (session : Session) (h : session.profile.age ≠ none)
    (h' : session.profile.income = none) :
    planNoWait session = [Step.ask_field "income"] := by
  simp [planNoWait, profileGet, h, h']

/-- `planNoWait` checks eligibility when both fields are present. -/
theorem planNoWait_full (session : Session) (h : session.profile.age ≠ none)
    (h' : session.profile.income ≠ none) :
    planNoWait session = [Step.check_eligibility] := by
  simp [planNoWait, profileGet, h, h']

/-- Claim C8: at or above the confidence threshold the Planner decides by
first-match-wins: confirmation mode plus a details/about keyword gives a
`describe_scheme` step carrying the raw utterance; confirmation mode
otherwise gives `confirm`; a (nonempty) waited-on field name gives
`fill_field` for it; otherwise the first missing required field in the
order age, income gives `ask_field`, and a complete profile gives
`check_eligibility`. -/
theorem plan_order_spec (session : Session) (transcript : String) (confidence : ℚ)
    (h : asrThreshold ≤ confidence) :
    (session.waiting_for = some "confirmation" →
      (hasDetailKeyword transcript = true →
        plan session transcript confidence = [Step.describe_scheme transcript]) ∧
      (hasDetailKeyword transcript = false →
        plan session transcript confidence = [Step.confirm]))
    ∧ (∀ f, session.waiting_for = some f → f ≠ "confirmation" → f ≠ "" →
        plan session transcript confidence = [Step.fill_field f])
    ∧ (notWaiting session → session.profile.age = none →
        plan session transcript confidence = [Step.ask_field "age"])
    ∧ (notWaiting session → session.profile.age ≠ none → session.profile.income = none →
        plan session transcript confidence = [Step.ask_field "income"])
    ∧ (notWaiting session → session.profile.age ≠ none → session.profile.income ≠ none →
        plan session transcript confidence = [Step.check_eligibility]) := by
  have hnot : ¬(confidence < asrThreshold) := not_lt.mpr h
  refine ⟨?_, ?_, ?_, ?_, ?_⟩
  · intro hw
    constructor <;> intro hd <;> simp [plan, hnot, hw, hd]
  · intro f hw hfc hfe
    simp [plan, hnot, hw, hfe, hfc]
  · rintro (hw | hw) hage <;> simp [plan, hnot, hw, planNoWait_age session hage]
  · rintro (hw | hw) hage hinc <;>
      simp [plan, hnot, hw, planNoWait_income session hage hinc]
  · rintro (hw | hw) hage hinc <;> simp [plan, hnot, hw, planNoWait_full session hage hinc]

/-- Witness for `plan_order_spec`: a session waiting on confirmation,
the utterance "details", confidence 1. -/
theorem plan_order_spec_witness :
    asrThreshold ≤ (1 : ℚ) ∧
      plan { waiting_for := some "confirmation" } "details" 1 = [Step.describe_scheme "details"] :=
  ⟨asrThreshold_le_one,
    ((plan_order_spec { waiting_for := some "confirmation" } "details" 1
      asrThreshold_le_one).1 rfl).1 (by decide)⟩

/-- Claim C4: a `fill_field` step for "age" (resp. "income") stores the
extracted value (first 1-3 digit run; resp. first run of three or more
digits after comma removal), clears `waiting_for`, and yields the
no-reply "filled" outcome; when extraction fails it re-sets
`waiting_for` to the same field, returns the re-prompt reply, and leaves
the profile unchanged. -/
theorem fill_field_spec (env : Env) (session : Session) (transcript : String) :
    (∀ run, searchAge transcript.data = some run →
      executeCore env (Step.fill_field "age") session transcript =
        ({ status := "filled", field := some "age" },
          { session with
              profile := { session.profile with age := some (digitsToNat run) },
              waiting_for := none }, []))
    ∧ (searchAge transcript.data = none →
      executeCore env (Step.fill_field "age") session transcript =
        ({ status := "ask", reply := some (fillRetryReply "age") },
          { session with
              waiting_for := some "age",
              history := session.history ++ [("assistant", fillRetryReply "age")] }, []))
    ∧ (∀ run, searchIncome (transcript.data.filter (fun c => !(c = ','))) = some run →
      executeCore env (Step.fill_field "income") session transcript =
        ({ status := "filled", field := some "income" },
          { session with
              profile := { session.profile with income := some (digitsToNat run) },
              waiting_for := none }, []))
    ∧ (searchIncome (transcript.data.filter (fun c => !(c = ','))) = none →
      executeCore env (Step.fill_field "income") session transcript =
        ({ status := "ask", reply := some (fillRetryReply "income") },
          { session with
              waiting_for := some "income",
              history := session.history ++ [("assistant", fillRetryReply "income")] }, [])) := by
  refine ⟨?_, ?_, ?_, ?_⟩
  · intro run h
    simp [executeCore, parse_and_set_field, addHistory, h]
  · intro h
    simp [executeCore, parse_and_set_field, addHistory, h]
  · intro run h
    simp [executeCore, parse_and_set_field, addHistory, h]
  · intro h
    simp [executeCore, parse_and_set_field, addHistory, h]

/-- Witness for `fill_field_spec`: filling "age" from "I am 24" stores 24
and clears the waiting marker. -/
theorem fill_field_spec_witness :
    searchAge ("I am 24" : String).data = some ['2', '4'] ∧
      executeCore
          { check_eligibility := fun _ => [], submit_application := fun _ => "A",
            search_schemes := fun _ => [], get_scheme_by_id := fun _ => ⟨"", "", ""⟩ }
          (Step.fill_field "age") { waiting_for := some "age" } "I am 24" =
        ({ status := "filled", field := some "age" },
          { profile := { age := some (digitsToNat ['2', '4']) }, waiting_for := none }, []) :=
  ⟨by decide,
    (fill_field_spec
      { check_eligibility := fun _ => [], submit_application := fun _ => "A",
        search_schemes := fun _ => [], get_scheme_by_id := fun _ => ⟨"", "", ""⟩ }
      { waiting_for := some "age" } "I am 24").1 ['2', '4'] (by decide)⟩

/-- `takeWhile isDigit` runs through an all-digit block. -/
theorem takeWhile_digits_append (run post : List Char)
    (h : ∀ c ∈ run, c.isDigit = true) :
    (run ++ post).takeWhile Char.isDigit = run ++ post.takeWhile Char.isDigit := by
  induction run with
  | nil => simp
  | cons c t ih =>
    simp only [List.cons_append, List.takeWhile_cons, h c (List.mem_cons_self _ _),
      if_true, List.cons.injEq, true_and]
    exact ih (fun d hd => h d (List.mem_cons_of_mem _ hd))

/-- `searchAge` on a digit-free prefix followed by a long digit run
returns the first three digits of the run. -/
theorem searchAge_concat (pre run post : List Char)
    (hpre : ∀ c ∈ pre, c.isDigit = false)
    (hrun : ∀ c ∈ run, c.isDigit = true) (hne : run ≠ []) (hlen : 3 ≤ run.length) :
    searchAge (pre ++ run ++ post) = some (run.take 3) := by
  induction pre with
  | nil =>
    rcases run with _ | ⟨c, t⟩
    · exact absurd rfl hne
    · have htw : ((c :: t) ++ post).takeWhile Char.isDigit =
          (c :: t) ++ post.takeWhile Char.isDigit :=
        takeWhile_digits_append (c :: t) post hrun
      simp only [List.nil_append, List.cons_append] at htw ⊢
      rw [searchAge, if_pos (hrun c (List.mem_cons_self _ _)), htw,
        ← List.cons_append, List.take_append_of_le_length hlen]
  | cons c pre ih =>
    have hc := hpre c (List.mem_cons_self _ _)
    simp only [List.cons_append]
    rw [searchAge, if_neg (by simp [hc])]
    exact ih (fun d hd => hpre d (List.mem_cons_of_mem _ hd))

/-- Claim C10: when the session waits on "age" and the utterance's first
maximal digit run is longer than three digits, the fill step succeeds
and stores the integer formed by the first three digits of the run only
(silent truncation, no range validation). -/
theorem fill_age_truncates (env : Env) (session : Session) (transcript : String)
    (pre run post : List Char) (hsplit : transcript.data = pre ++ run ++ post)
    (hpre : ∀ c ∈ pre, c.isDigit = false) (hrun : ∀ c ∈ run, c.isDigit = true)
    (hlen : 3 < run.length)
    (hmax : ∀ c, post.head? = some c → c.isDigit = false)
    (hw : session.waiting_for = some "age") :
    executeCore env (Step.fill_field "age") session transcript =
      ({ status := "filled", field := some "age" },
        { session with
            profile := { session.profile with age := some (digitsToNat (run.take 3)) },
            waiting_for := none }, []) := by
  have hne : run ≠ [] := by
    intro h0
    rw [h0] at hlen
    simp at hlen
  have h := searchAge_concat pre run post hpre hrun hne (le_of_lt hlen)
  rw [← hsplit] at h
  simp [executeCore, parse_and_set_field, h]

/-- Witness for `fill_age_truncates`: the utterance "2024" stores age
202. -/
theorem fill_age_truncates_witness :
    ("2024" : String).data = [] ++ ['2', '0', '2', '4'] ++ [] ∧
      (executeCore
          { check_eligibility := fun _ => [], submit_application := fun _ => "A",
            search_schemes := fun _ => [], get_scheme_by_id := fun _ => ⟨"", "", ""⟩ }
          (Step.fill_field "age") { waiting_for := some "age" } "2024").2.1.profile.age =
        some 202 := by
  refine ⟨by decide, ?_⟩
  rw [fill_age_truncates
    { check_eligibility := fun _ => [], submit_application := fun _ => "A",
      search_schemes := fun _ => [], get_scheme_by_id := fun _ => ⟨"", "", ""⟩ }
    { waiting_for := some "age" } "2024" [] ['2', '0', '2', '4'] [] (by decide)
    (by decide) (by decide) (by decide) (fun c h => Option.noConfusion h) rfl]
  decide

/-- A shared concrete collaborator environment for witnesses. -/
def constEnv : Env :=
  { check_eligibility := fun _ => [⟨"S1", "Scheme One", "Desc One"⟩],
    submit_application := fun _ => "APP-1",
    search_schemes := fun _ => [],
    get_scheme_by_id := fun _ => ⟨"S1", "Scheme One", "Desc One"⟩ }

/-- Claim C3: executing `confirm` on a session waiting in confirmation
mode submits the current profile exactly once, clears `waiting_for` and
replies with the application identifier when the Confirmation Parser
says yes; clears `waiting_for`, acknowledges and submits nothing when it
says no; and keeps confirmation mode, re-asking for yes/no, when the
answer is unclear. -/
theorem confirm_step_spec (env : Env) (session : Session) (transcript : String)
    (hw : session.waiting_for = some "confirmation") :
    (parse_confirmation transcript = some true →
      executeCore env Step.confirm session transcript =
        ({ status := "submitted",
            reply := some (submittedReply (env.submit_application session.profile)),
            application_id := some (env.submit_application session.profile) },
          { session with
              history := session.history ++
                [("assistant", submittedReply (env.submit_application session.profile))],
              waiting_for := none },
          [session.profile]))
    ∧ (parse_confirmation transcript = some false →
      executeCore env Step.confirm session transcript =
        ({ status := "declined", reply := some declinedReply },
          { session with
              history := session.history ++ [("assistant", declinedReply)],
              waiting_for := none }, []))
    ∧ (parse_confirmation transcript = none →
      executeCore env Step.confirm session transcript =
        ({ status := "confirm_ask", reply := some confirmAskReply },
          { session with
              waiting_for := some "confirmation",
              history := session.history ++ [("assistant", confirmAskReply)] }, [])) := by
  refine ⟨?_, ?_, ?_⟩ <;> intro hp <;> simp [executeCore, addHistory, hp]

/-- Witness for `confirm_step_spec`: an affirmative Telugu utterance on a
waiting session submits once and embeds the id "APP-1". -/
theorem confirm_step_spec_witness :
    parse_confirmation "అవును" = some true ∧
      executeCore constEnv Step.confirm { waiting_for := some "confirmation" } "అవును" =
        ({ status := "submitted", reply := some (submittedReply "APP-1"),
            application_id := some "APP-1" },
          { waiting_for := none,
            history := [("assistant", submittedReply "APP-1")] },
          [{}]) :=
  ⟨by decide,
    (confirm_step_spec constEnv { waiting_for := some "confirmation" } "అవును" rfl).1
      (by decide)⟩

/-- Claim C5: `check_eligibility` invokes the eligibility evaluator with
the current profile and stores the result as the session's last offer
list; a non-empty result sets confirmation mode and replies with the
offer names plus the yes/no prompt; an empty result clears `waiting_for`
and replies that no offer matched. -/
theorem check_eligibility_spec (env : Env) (session : Session) (transcript : String) :
    ((executeCore env Step.check_eligibility session transcript).2.1.last_eligibility =
        env.check_eligibility session.profile)
    ∧ ((executeCore env Step.check_eligibility session transcript).1.eligible =
        some (env.check_eligibility session.profile))
    ∧ (env.check_eligibility session.profile ≠ [] →
        (executeCore env Step.check_eligibility session transcript).2.1.waiting_for =
            some "confirmation" ∧
          (executeCore env Step.check_eligibility session transcript).1.reply =
            some (eligibleReply
              (joinComma ((env.check_eligibility session.profile).map Scheme.name))))
    ∧ (env.check_eligibility session.profile = [] →
        (executeCore env Step.check_eligibility session transcript).2.1.waiting_for = none ∧
          (executeCore env Step.check_eligibility session transcript).1.reply =
            some noSchemeReply) := by
  rcases hel : env.check_eligibility session.profile with _ | ⟨s, ss⟩ <;>
    refine ⟨?_, ?_, ?_, ?_⟩ <;> simp [executeCore, addHistory, hel]

/-- Witness for `check_eligibility_spec`: with `constEnv` the offer list
is non-empty, so the session ends waiting for confirmation. -/
theorem check_eligibility_spec_witness :
    constEnv.check_eligibility ({} : Session).profile ≠ [] ∧
      (executeCore constEnv Step.check_eligibility {} "సరే").2.1.waiting_for =
        some "confirmation" :=
  ⟨by decide, ((check_eligibility_spec constEnv {} "సరే").2.2.1 (by decide)).1⟩

/-- Claim C6: `describe_scheme` resolves its query (the step's query, or
the raw transcript when that is empty) against the last offer list
first — an offer matches when its lower-cased name or identifier occurs
inside the lower-cased query — and only on no local match falls back to
the global search; a fully unsuccessful lookup keeps confirmation mode
and replies "could not find details"; otherwise the reply is the name
and description of the first match (fetched from the offer store by its
identifier), and in every case `waiting_for` stays at confirmation
mode. -/
theorem describe_scheme_spec (env : Env) (session : Session) (q transcript : String)
    (hw : session.waiting_for = some "confirmation") :
    ((executeCore env (Step.describe_scheme q) session transcript).2.1.waiting_for =
        some "confirmation")
    ∧ (session.last_eligibility.filter (schemeMatches (describeQuery q transcript)) = [] →
        env.search_schemes (describeQuery q transcript) = [] →
        (executeCore env (Step.describe_scheme q) session transcript).1.status =
            "no_details" ∧
          (executeCore env (Step.describe_scheme q) session transcript).1.reply =
            some noDetailsReply)
    ∧ (∀ first rest,
        session.last_eligibility.filter (schemeMatches (describeQuery q transcript)) =
            first :: rest →
        env.get_scheme_by_id first.id = first →
        (executeCore env (Step.describe_scheme q) session transcript).1.reply =
          some (first.name ++ ": " ++ first.description))
    ∧ (∀ first rest,
        session.last_eligibility.filter (schemeMatches (describeQuery q transcript)) = [] →
        env.search_schemes (describeQuery q transcript) = first :: rest →
        env.get_scheme_by_id first.id = first →
        (executeCore env (Step.describe_scheme q) session transcript).1.reply =
          some (first.name ++ ": " ++ first.description)) := by
  refine ⟨?_, ?_, ?_, ?_⟩
  · rcases hloc : session.last_eligibility.filter
        (schemeMatches (describeQuery q transcript)) with _ | ⟨f, fs⟩
    · rcases hglob : env.search_schemes (describeQuery q transcript) with _ | ⟨g, gs⟩ <;>
        simp [executeCore, addHistory, hloc, hglob]
    · simp [executeCore, addHistory, hloc]
  · intro hloc hglob
    simp [executeCore, addHistory, hloc, hglob]
  · intro first rest hloc hdoc
    simp [executeCore, addHistory, hloc, hdoc]
  · intro first rest hloc hglob hdoc
    simp [executeCore, addHistory, hloc, hglob, hdoc]

/-- Witness for `describe_scheme_spec`: with one matching offer in
`lastOffers`, the reply is that offer's name and description and the
session stays in confirmation mode. -/
theorem describe_scheme_spec_witness :
    ({ waiting_for := some "confirmation",
        last_eligibility := [⟨"S1", "Scheme One", "Desc One"⟩] } :
        Session).last_eligibility.filter
          (schemeMatches (describeQuery "about scheme one" "x")) =
        [⟨"S1", "Scheme One", "Desc One"⟩] ∧
      (executeCore constEnv (Step.describe_scheme "about scheme one")
          { waiting_for := some "confirmation",
            last_eligibility := [⟨"S1", "Scheme One", "Desc One"⟩] } "x").1.reply =
        some ("Scheme One" ++ ": " ++ "Desc One") :=
  ⟨by decide,
    (describe_scheme_spec constEnv
        { waiting_for := some "confirmation",
          last_eligibility := [⟨"S1", "Scheme One", "Desc One"⟩] }
        "about scheme one" "x" rfl).2.2.1 ⟨"S1", "Scheme One", "Desc One"⟩ []
      (by decide) (by decide)⟩

/-- Claim C9: for an absent session, every Executor step returns the
error outcome with no reply, no submission and no state change, and
`process_input` returns the explicit `session_not_found` error without
appending history, executing anything, or creating a session. -/
theorem no_session_spec :
    (∀ (env : Env) (step : Step) (transcript : String),
      execute env step none transcript =
        ({ status := "error", error := some "no_session" }, none, []))
    ∧ (∀ (C : Components) (transcript : String) (confidence : ℚ),
      process_input C none transcript confidence =
        { response := { status := "error", error := some "session_not_found" },
          store := none, submitted := [], outs := [], iterations := 0 }) :=
  ⟨fun _ _ _ => rfl, fun _ _ _ => rfl⟩

/-- An element selected by `getLast?` is a member. -/
theorem mem_of_getLast?_eq {α : Type} (l : List α) (a : α) (h : l.getLast? = some a) :
    a ∈ l := by
  induction l with
  | nil => simp at h
  | cons x xs ih =>
    rcases xs with _ | ⟨y, ys⟩
    · simp_all [List.getLast?]
    · rw [List.getLast?_cons_cons] at h
      exact List.mem_cons_of_mem _ (ih h)

/-- Trace shape of the inner step loop: starting from a trace of no-reply
outcomes, a fall-through leaves only no-reply outcomes in the trace, and
an early return makes the response the `buildEarly` of the trace's last
outcome, the only one with a truthy reply. -/
theorem runSteps_reply_trace (ex : Step → Session → String → Outcome × Session × List Profile)
    (transcript : String) :
    ∀ (p : List Step) (sess : Session) (resp : Option Outcome) (log : List Profile)
      (outs : List Outcome), (∀ o ∈ outs, truthyS o.reply = false) →
      (match runSteps ex transcript p sess resp log outs with
       | StepsOut.early r _ _ outs' =>
         (∀ o ∈ outs'.dropLast, truthyS o.reply = false) ∧
           ∃ o, outs'.getLast? = some o ∧ truthyS o.reply = true ∧ r = buildEarly o
       | StepsOut.through _ _ _ outs' => ∀ o ∈ outs', truthyS o.reply = false) := by
  intro p
  induction p with
  | nil => intro sess resp log outs h; exact h
  | cons step rest ih =>
    intro sess resp log outs h
    simp only [runSteps]
    have happ : ∀ (x : Outcome), truthyS x.reply = false →
        ∀ o ∈ outs ++ [x], truthyS o.reply = false := by
      intro x hx o ho
      rcases List.mem_append.mp ho with hm | hm
      · exact h o hm
      · rw [List.mem_singleton.mp hm]
        exact hx
    by_cases hrep : truthyS (ex step sess transcript).1.reply = true
    · rw [if_pos hrep]
      exact ⟨by rw [List.dropLast_concat]; exact h,
        ⟨_, List.getLast?_concat _, hrep, rfl⟩⟩
    · have hrep' : truthyS (ex step sess transcript).1.reply = false :=
        Bool.not_eq_true _ ▸ eq_false_of_ne_true hrep
      rw [if_neg hrep]
      by_cases hst : (ex step sess transcript).1.status = "filled"
      · rw [if_pos hst]
        exact happ _ hrep'
      · rw [if_neg hst]
        exact ih _ _ _ _ (happ _ hrep')

/-- Trace shape of the outer loop: from a no-reply trace, every outcome
before the last one has no truthy reply, and if the last one does, the
response is its `buildEarly`. -/
theorem loopGo_reply_trace (C : Components) (transcript : String) (confidence : ℚ) :
    ∀ (fuel : Nat) (sess : Session) (resp : Option Outcome) (log : List Profile)
      (outs : List Outcome) (iters : Nat), (∀ o ∈ outs, truthyS o.reply = false) →
      (∀ o ∈ (loopGo C transcript confidence fuel sess resp log outs iters).outs.dropLast,
          truthyS o.reply = false) ∧
      (∀ o, (loopGo C transcript confidence fuel sess resp log outs iters).outs.getLast? =
            some o → truthyS o.reply = true →
        (loopGo C transcript confidence fuel sess resp log outs iters).response =
          buildEarly o) := by
  intro fuel
  induction fuel with
  | zero =>
    intro sess resp log outs iters h
    refine ⟨fun o ho => h o (List.mem_of_mem_dropLast ho), fun o hlast htr => ?_⟩
    have hmem := h o (mem_of_getLast?_eq _ _ hlast)
    rw [htr] at hmem
    cases hmem
  | succ n ih =>
    intro sess resp log outs iters h
    simp only [loopGo]
    by_cases hp : (C.plannerF sess transcript confidence).isEmpty
    · rw [if_pos hp]
      refine ⟨fun o ho => h o (List.mem_of_mem_dropLast ho), fun o hlast htr => ?_⟩
      have hmem := h o (mem_of_getLast?_eq _ _ hlast)
      rw [htr] at hmem
      cases hmem
    · rw [if_neg hp]
      have hrs := runSteps_reply_trace C.executorF transcript
        (C.plannerF sess transcript confidence) sess resp log outs h
      rcases hrun : runSteps C.executorF transcript
          (C.plannerF sess transcript confidence) sess resp log outs with
        ⟨r, sess', log', outs'⟩ | ⟨resp', sess', log', outs'⟩
      · rw [hrun] at hrs
        rcases hrs with ⟨hdrop, o, hlast, htr, hre⟩
        refine ⟨hdrop, fun o' hlast' htr' => ?_⟩
        rw [hlast] at hlast'
        rw [← Option.some_inj.mp hlast']
        exact hre
      · rw [hrun] at hrs
        exact ih sess' resp' log' outs' (iters + 1) hrs

/-- The outer loop performs at most `fuel` further iterations. -/
theorem loopGo_iters_le (C : Components) (transcript : String) (confidence : ℚ) :
    ∀ (fuel : Nat) (sess : Session) (resp : Option Outcome) (log : List Profile)
      (outs : List Outcome) (iters : Nat),
      (loopGo C transcript confidence fuel sess resp log outs iters).iterations ≤
        iters + fuel := by
  intro fuel
  induction fuel with
  | zero => intro sess resp log outs iters; simp [loopGo]
  | succ n ih =>
    intro sess resp log outs iters
    simp only [loopGo]
    by_cases hp : (C.plannerF sess transcript confidence).isEmpty
    · rw [if_pos hp]
      simp
    · rw [if_neg hp]
      rcases hrun : runSteps C.executorF transcript
          (C.plannerF sess transcript confidence) sess resp log outs with
        ⟨r, sess', log', outs'⟩ | ⟨resp', sess', log', outs'⟩
      · simp
      · calc (loopGo C transcript confidence n sess' resp' log' outs' (iters + 1)).iterations ≤
              (iters + 1) + n := ih sess' resp' log' outs' (iters + 1)
          _ = iters + (n + 1) := by omega

/-- With an executor that always yields a reply-free "filled" outcome and
a planner that always yields a step, the outer loop uses its whole fuel
and falls back to a response carrying status "filled" and no reply. -/
theorem loopGo_always_filled (C : Components) (transcript : String) (confidence : ℚ)
    (hex : ∀ step sess t, (C.executorF step sess t).1.status = "filled" ∧
      (C.executorF step sess t).1.reply = none)
    (hpl : ∀ sess t c, C.plannerF sess t c ≠ []) :
    ∀ (fuel : Nat) (sess : Session) (o : Outcome) (log : List Profile)
      (outs : List Outcome) (iters : Nat), o.status = "filled" → o.reply = none →
      (loopGo C transcript confidence fuel sess (some o) log outs iters).iterations =
          iters + fuel ∧
      (loopGo C transcript confidence fuel sess (some o) log outs iters).response.status =
          "filled" ∧
      (loopGo C transcript confidence fuel sess (some o) log outs iters).response.reply =
          none := by
  intro fuel
  induction fuel with
  | zero =>
    intro sess o log outs iters hs hr
    simp [loopGo, fallbackResponse, hs, hr]
  | succ n ih =>
    intro sess o log outs iters hs hr
    simp only [loopGo]
    have hp := hpl sess transcript confidence
    rw [if_neg (by simpa [List.isEmpty_iff] using hp)]
    rcases hplan : C.plannerF sess transcript confidence with _ | ⟨p, ps⟩
    · exact absurd hplan hp
    · simp only [runSteps]
      have hfirst := hex p sess transcript
      rw [hfirst.2]
      simp only [truthyS, Bool.false_eq_true, if_false, hfirst.1, if_true]
      have := ih (C.executorF p sess transcript).2.1 (C.executorF p sess transcript).1
        (log ++ (C.executorF p sess transcript).2.2)
        (outs ++ [(C.executorF p sess transcript).1]) (iters + 1) hfirst.1 hfirst.2
      refine ⟨?_, this.2.1, this.2.2⟩
      rw [this.1]
      omega

/-- First iteration of an always-filled run: any prior response is
replaced by the first step's "filled" outcome, after which the loop
spends all its fuel. -/
theorem loopGo_always_filled_start (C : Components) (transcript : String) (confidence : ℚ)
    (hex : ∀ step sess t, (C.executorF step sess t).1.status = "filled" ∧
      (C.executorF step sess t).1.reply = none)
    (hpl : ∀ sess t c, C.plannerF sess t c ≠ [])
    (n : Nat) (sess : Session) (resp : Option Outcome) (log : List Profile)
    (outs : List Outcome) (iters : Nat) :
    (loopGo C transcript confidence (n + 1) sess resp log outs iters).iterations =
        iters + (n + 1) ∧
    (loopGo C transcript confidence (n + 1) sess resp log outs iters).response.status =
        "filled" ∧
    (loopGo C transcript confidence (n + 1) sess resp log outs iters).response.reply =
        none := by
  simp only [loopGo]
  have hp := hpl sess transcript confidence
  rw [if_neg (by simpa [List.isEmpty_iff] using hp)]
  rcases hplan : C.plannerF sess transcript confidence with _ | ⟨p, ps⟩
  · exact absurd hplan hp
  · simp only [runSteps]
    have hfirst := hex p sess transcript
    rw [hfirst.2]
    simp only [truthyS, Bool.false_eq_true, if_false, hfirst.1, if_true]
    have hrest := loopGo_always_filled C transcript confidence hex hpl n
      (C.executorF p sess transcript).2.1 (C.executorF p sess transcript).1
      (log ++ (C.executorF p sess transcript).2.2)
      (outs ++ [(C.executorF p sess transcript).1]) (iters + 1) hfirst.1 hfirst.2
    refine ⟨?_, hrest.2.1, hrest.2.2⟩
    rw [hrest.1]
    omega

/-- Claim C2 (amended): every `process_input` call on an existing session
performs at most 5 planner-executor iterations; it returns at the first
executor outcome carrying a truthy reply — every earlier outcome in the
trace has none, and the response is built from that outcome; and with a
Planner/Executor pairing whose steps always return a reply-free "filled"
outcome the loop terminates after exactly 5 iterations and returns the
fallback built from the last outcome — status "filled" with no reply —
not a "no_action" response (which appears only when no outcome was ever
produced). -/
theorem process_input_loop_spec (C : Components) (sess : Session) (transcript : String)
    (confidence : ℚ) :
    (process_input C (some sess) transcript confidence).iterations ≤ 5
    ∧ (∀ o ∈ (process_input C (some sess) transcript confidence).outs.dropLast,
        truthyS o.reply = false)
    ∧ (∀ o, (process_input C (some sess) transcript confidence).outs.getLast? = some o →
        truthyS o.reply = true →
        (process_input C (some sess) transcript confidence).response = buildEarly o)
    ∧ ((∀ step s t, (C.executorF step s t).1.status = "filled" ∧
          (C.executorF step s t).1.reply = none) →
        (∀ s t c, C.plannerF s t c ≠ []) →
        (process_input C (some sess) transcript confidence).iterations = 5 ∧
          (process_input C (some sess) transcript confidence).response.status = "filled" ∧
          (process_input C (some sess) transcript confidence).response.reply = none) := by
  have hempty : ∀ o ∈ ([] : List Outcome), truthyS o.reply = false := by
    intro o ho
    cases ho
  have htrace := loopGo_reply_trace C transcript confidence 5
    (addHistory sess "user" transcript) none [] [] 0 hempty
  refine ⟨?_, htrace.1, htrace.2, ?_⟩
  · exact loopGo_iters_le C transcript confidence 5
      (addHistory sess "user" transcript) none [] [] 0
  · intro hex hpl
    exact loopGo_always_filled_start C transcript confidence hex hpl 4
      (addHistory sess "user" transcript) none [] [] 0

/-- A Planner/Executor pairing whose executor always reports "filled"
with no reply (the spec's iteration-bound scenario). -/
def alwaysFilledC : Components :=
  { plannerF := fun _ _ _ => [Step.check_eligibility],
    executorF := fun _ s _ => ({ status := "filled" }, s, []) }

/-- Counterexample to claim C2 as stated: under an always-"filled"
pairing the loop does stop after exactly 5 iterations, but the returned
response carries the last outcome's status "filled" (with no reply), not
the claimed "no action" fallback. -/
theorem process_input_no_action_counterexample :
    (process_input alwaysFilledC (some {}) "" 1).iterations = 5 ∧
    (process_input alwaysFilledC (some {}) "" 1).response.status = "filled" ∧
    (process_input alwaysFilledC (some {}) "" 1).response.status ≠ "no_action" := by
  refine ⟨rfl, rfl, by decide⟩

/-- Witness for `process_input_loop_spec` at the always-filled pairing. -/
theorem process_input_loop_spec_witness :
    (process_input alwaysFilledC (some {}) "" 1).iterations ≤ 5 ∧
      ((process_input alwaysFilledC (some {}) "" 1).iterations = 5 ∧
        (process_input alwaysFilledC (some {}) "" 1).response.status = "filled" ∧
        (process_input alwaysFilledC (some {}) "" 1).response.reply = none) :=
  ⟨(process_input_loop_spec alwaysFilledC {} "" 1).1,
    (process_input_loop_spec alwaysFilledC {} "" 1).2.2.2
      (fun _ _ _ => ⟨rfl, rfl⟩) (fun _ _ _ h => List.noConfusion h)⟩

/-- Witness for `parse_confirmation_spec`: at "yes" the Affirmative
characterisation yields `some true`. -/
theorem parse_confirmation_spec_witness : parse_confirmation "yes" = some true :=
  (parse_confirmation_spec "yes").2.1.mpr (by decide)

/-- Witness for `no_session_spec`: a concrete step on an absent session. -/
theorem no_session_spec_witness :
    execute constEnv Step.confirm none "అవును" =
      ({ status := "error", error := some "no_session" }, none, []) :=
  no_session_spec.1 constEnv Step.confirm "అవును"
